import Mathlib

/-!
Shallow embedding of the agent control plane of the nezha dashboard
(repository KJZH001/nezha-2024) and verification of its stated properties.

The embedding covers:
- the single-port protocol multiplexer (newHTTPandGRPCMux, cmd/dashboard/main.go);
- the periodic report-host-info fan-out (dispatchReportInfoTask, cmd/dashboard/main.go),
  modelled as a trace of lock and send events;
- the file-manager session endpoints (createFM and fm,
  cmd/dashboard/controller/common_page.go);
- the member API handlers for API tokens, cron jobs, force-update and
  generic entity deletion (cmd/dashboard/controller/member_api.go).

Go maps are modelled as functions into Option; the registries mutated by a
handler are threaded through explicitly.  External effects (database writes,
the cron engine, stream sends) are recorded in the handler result or resolved
by explicit oracle arguments standing for the outcome of the call.
-/

namespace NezhaSpec

/-- Pointwise update of a map modelled as a function; mirrors Go map
assignment (value `some v` or `true`) and deletion (value `none` / `false`). -/
def fupd {α β : Type} [DecidableEq α] (m : α → β) (k : α) (v : β) : α → β :=
  fun x => if x = k then v else m x

/-- Message tags of the JSON responses produced by the handlers, standing for
the literal message strings of the Go code. -/
inductive RespMsg
  | success
  | reqError
  | dbError
  | tokenEmpty
  | tokenNotExist
  | badServerId
deriving DecidableEq

/-- The model.Response body written by a handler: the Code field plus the
message tag. -/
structure Resp where
  code : Nat
  msg : RespMsg
deriving DecidableEq

/-- The open task stream of a connected agent.  The sendOk field resolves the
outcome of TaskStream.Send on this stream (true = nil error). -/
structure TaskStream where
  sendOk : Bool
deriving DecidableEq

/-- A singleton.ServerList entry: taskStream is none when the agent has no
live stream (TaskStream == nil in Go). -/
structure Server where
  taskStream : Option TaskStream
deriving DecidableEq

/-- The request head information the multiplexer inspects. -/
structure HTTPRequest where
  contentType : String
  urlPath : String
deriving DecidableEq

/-- The two sub-servers an inbound request can be routed to. -/
inductive RouteTarget
  | grpcHandler
  | httpHandler
deriving DecidableEq

/-- Embedding of newHTTPandGRPCMux (cmd/dashboard/main.go, lines 160-169):
route to the gRPC handler exactly when the Content-Type header equals
application/grpc and the URL path has the service-name prefix. -/
def newHTTPandGRPCMux (serviceName : String) (r : HTTPRequest) : RouteTarget :=
  if r.contentType == "application/grpc" && r.urlPath.startsWith ("/" ++ serviceName) then
    RouteTarget.grpcHandler
  else
    RouteTarget.httpHandler

/-- Per-target outcome of the forceUpdate fan-out, standing for the three
result lines written to the execute-result buffer. -/
inductive UpdateOutcome
  | success
  | deliveryFailed
  | offline
deriving DecidableEq

/-- One iteration of the forceUpdate loop (member_api.go, lines 475-490):
look the id up in ServerList; a missing entry or a nil TaskStream is reported
offline; otherwise Send is attempted and its error reported. -/
def forceUpdateStep (sl : Nat → Option Server) (id : Nat) : UpdateOutcome :=
  match sl id with
  | some server =>
    match server.taskStream with
    | some stream => if stream.sendOk = true then UpdateOutcome.success else UpdateOutcome.deliveryFailed
    | none => UpdateOutcome.offline
  | none => UpdateOutcome.offline

/-- Embedding of the forceUpdate handler loop (member_api.go, lines 463-496):
one result per requested id, in request order. -/
def forceUpdate (sl : Nat → Option Server) (ids : List Nat) : List (Nat × UpdateOutcome) :=
  ids.map (fun id => (id, forceUpdateStep sl id))

/-- Lock and network events of a dispatch operation, used to check the lock
discipline around stream sends. -/
inductive LockEvent
  | rlockEv
  | runlockEv
  | sendEv
deriving DecidableEq

/-- Events contributed by one ServerList entry inside the
dispatchReportInfoTask loop: entries without a live stream are skipped,
every other entry gets one Send. -/
def reportServerEvents (sv : Option Server) : List LockEvent :=
  match sv with
  | none => []
  | some server =>
    match server.taskStream with
    | none => []
    | some _ => [LockEvent.sendEv]

/-- Embedding of dispatchReportInfoTask (cmd/dashboard/main.go, lines
145-158) as its event trace: RLock, then every Send of the loop, then the
deferred RUnlock. -/
def dispatchReportInfoTask (servers : List (Option Server)) : List LockEvent :=
  [LockEvent.rlockEv] ++ (servers.map reportServerEvents).flatten ++ [LockEvent.runlockEv]

/-- Events of one forceUpdate loop iteration: the lock is taken and released
around the ServerList lookup, and any Send happens after the release. -/
def forceUpdateTargetEvents (sl : Nat → Option Server) (id : Nat) : List LockEvent :=
  [LockEvent.rlockEv, LockEvent.runlockEv] ++
    (match sl id with
     | some sv =>
       match sv.taskStream with
       | some _ => [LockEvent.sendEv]
       | none => []
     | none => [])

/-- Event trace of the whole forceUpdate fan-out. -/
def forceUpdateEvents (sl : Nat → Option Server) (ids : List Nat) : List LockEvent :=
  (ids.map (forceUpdateTargetEvents sl)).flatten

/-- The read-lock depth at which each send event of a trace occurs, starting
from the given depth. -/
def sendDepths : Nat → List LockEvent → List Nat
  | _, [] => []
  | d, LockEvent.rlockEv :: r => sendDepths (d + 1) r
  | d, LockEvent.runlockEv :: r => sendDepths (d - 1) r
  | d, LockEvent.sendEv :: r => d :: sendDepths d r

/-- The Go conversion uint64(serverId) applied to the (signed) result of
strconv.Atoi. -/
def intToUInt64 (i : Int) : Nat := (i % (2 : Int) ^ 64).toNat

/-- The exit taken by the createFM handler. -/
inductive CreateFMResult
  | errUnauthorized
  | errGenUUID
  | errParseId
  | errServerNotFound
  | nilStreamCrash
  | errSendFailed
  | success (sessionId : String)
deriving DecidableEq

/-- Embedding of createFM (common_page.go, lines 211-286).  Oracle arguments
resolve the authorization check, uuid.GenerateUUID and strconv.Atoi; the
session registry kept by the rpc handler is the set of created stream ids,
modelled as a Boolean map.  CreateStream registers the fresh id; no exit path
of the handler removes it again.  A ServerList entry whose TaskStream is nil
makes the Go code dereference a nil stream, modelled as nilStreamCrash. -/
def createFM (authorized : Bool) (genUUID : Option String) (idParse : Option Int)
    (serverList : Nat → Option Server) (sessions : String → Bool) :
    (String → Bool) × CreateFMResult :=
  if authorized = false then (sessions, CreateFMResult.errUnauthorized)
  else
    match genUUID with
    | none => (sessions, CreateFMResult.errGenUUID)
    | some streamId =>
      match idParse with
      | none => (fupd sessions streamId true, CreateFMResult.errParseId)
      | some serverId =>
        match serverList (intToUInt64 serverId) with
        | none => (fupd sessions streamId true, CreateFMResult.errServerNotFound)
        | some server =>
          match server.taskStream with
          | none => (fupd sessions streamId true, CreateFMResult.nilStreamCrash)
          | some stream =>
            if stream.sendOk = true then (fupd sessions streamId true, CreateFMResult.success streamId)
            else (fupd sessions streamId true, CreateFMResult.errSendFailed)

/-- Calls performed by the fm handler, in order. -/
inductive FMEvent
  | userConnectedCall
  | startStreamCall
  | wsCloseCall
  | closeStreamCall
deriving DecidableEq, BEq

/-- Embedding of fm (common_page.go, lines 164-209) as its call trace.  After
GetStream succeeds, CloseStream is deferred, so it runs exactly once on every
later exit: websocket upgrade failure, UserConnected failure, and the end of
StartStream.  The deferred wsConn.Close (registered after CloseStream) runs
first on the paths where the upgrade succeeded. -/
def fm (getStreamOk upgradeOk userConnectedOk : Bool) : List FMEvent :=
  if getStreamOk = false then []
  else
    if upgradeOk = false then [FMEvent.closeStreamCall]
    else
      if userConnectedOk = false then
        [FMEvent.userConnectedCall, FMEvent.wsCloseCall, FMEvent.closeStreamCall]
      else
        [FMEvent.userConnectedCall, FMEvent.startStreamCall, FMEvent.wsCloseCall,
         FMEvent.closeStreamCall]

/-- A model.ApiToken record. -/
structure ApiToken where
  userID : Nat
  token : String
  note : String
deriving DecidableEq

/-- The two in-memory token indices guarded by ApiLock:
singleton.ApiTokenList (token string to record) and
singleton.UserIDToApiTokenList (user id to token list). -/
structure TokenState where
  apiTokenList : String → Option ApiToken
  userIDToApiTokenList : Nat → Option (List String)

/-- The bound TokenForm of issueNewToken. -/
structure TokenForm where
  note : String
deriving DecidableEq

/-- Removal of the first occurrence of a token from a user token list,
mirroring the break-terminated removal loop of deleteToken
(member_api.go, lines 147-152). -/
def eraseFirst : List String → String → List String
  | [], _ => []
  | x :: xs, t => if x = t then xs else x :: eraseFirst xs t

/-- The reverse-index update of deleteToken: if the owner list contains the
token, the first occurrence is removed (the loop assigns the shortened
slice); otherwise the index is untouched. -/
def removeFromRev (uid : Nat) (tok : String) (rev : Nat → Option (List String)) :
    Nat → Option (List String) :=
  if tok ∈ (rev uid).getD [] then fupd rev uid (some (eraseFirst ((rev uid).getD []) tok))
  else rev

/-- The empty-list pruning of deleteToken (member_api.go, lines 153-155):
an owner whose list became empty is deleted from the reverse index. -/
def prune (uid : Nat) (rev : Nat → Option (List String)) : Nat → Option (List String) :=
  if ((rev uid).getD []).length = 0 then fupd rev uid none else rev

/-- The in-memory effect of the issueNewToken success path (member_api.go,
lines 109-112): the record joins the primary map and the token string is
appended to the issuing user reverse list. -/
def issueCore (u : Nat) (note : String) (g : String) (s : TokenState) : TokenState :=
  ⟨fupd s.apiTokenList g (some ⟨u, g, note⟩),
   fupd s.userIDToApiTokenList u (some (((s.userIDToApiTokenList u).getD []) ++ [g]))⟩

/-- Embedding of issueNewToken (member_api.go, lines 83-122).  The bind
argument resolves ShouldBindJSON, gen resolves GenerateRandomString; either
failure returns a 400 without touching the registries. -/
def issueNewToken (u : Nat) (bind : Option TokenForm) (gen : Option String) (s : TokenState) :
    TokenState × Resp :=
  match bind with
  | none => (s, ⟨400, RespMsg.reqError⟩)
  | some tf =>
    match gen with
    | none => (s, ⟨400, RespMsg.reqError⟩)
    | some g => (issueCore u tf.note g s, ⟨200, RespMsg.success⟩)

/-- Embedding of deleteToken (member_api.go, lines 125-162).  The Boolean in
the result records whether the database delete was issued. -/
def deleteToken (tok : String) (s : TokenState) : TokenState × Resp × Bool :=
  if tok = "" then (s, ⟨400, RespMsg.tokenEmpty⟩, false)
  else
    match s.apiTokenList tok with
    | none => (s, ⟨400, RespMsg.tokenNotExist⟩, false)
    | some tk =>
      (⟨fupd s.apiTokenList tok none,
        prune tk.userID (removeFromRev tk.userID tok s.userIDToApiTokenList)⟩,
       ⟨200, RespMsg.success⟩, true)

/-- Reverse-index side of the token registry invariant: every present list is
nonempty and duplicate free, and each of its tokens is owned (in the primary
map) by exactly that user. -/
def revListOk (s : TokenState) : Prop :=
  ∀ u l, s.userIDToApiTokenList u = some l →
    l ≠ [] ∧ l.Nodup ∧ ∀ t ∈ l, ∃ tk, s.apiTokenList t = some tk ∧ tk.userID = u

/-- Primary-map side of the token registry invariant: every token of the
primary map appears in its owner reverse list. -/
def primCovered (s : TokenState) : Prop :=
  ∀ t tk, s.apiTokenList t = some tk →
    ∃ l, s.userIDToApiTokenList tk.userID = some l ∧ t ∈ l

/-- The full token registry invariant maintained by the API handlers. -/
def tokenInv (s : TokenState) : Prop := revListOk s ∧ primCovered s

/-- The dual-index consistency stated by the specification: a token is a key
of the primary map exactly when it appears in the owning user reverse list,
and no user maps to an empty list. -/
def dualIndexOk (s : TokenState) : Prop :=
  (∀ t tk, s.apiTokenList t = some tk →
    ∃ l, s.userIDToApiTokenList tk.userID = some l ∧ t ∈ l) ∧
  (∀ u l, s.userIDToApiTokenList u = some l →
    l ≠ [] ∧ ∀ t ∈ l, (s.apiTokenList t).isSome = true)

/-- The bound cronForm of addOrEditCron. -/
structure CronForm where
  id : Nat
  taskType : Nat
  name : String
  scheduler : String
  command : String
  serversRaw : String
  cover : Nat
  pushSuccessful : String
deriving DecidableEq

/-- The zero value a failed ShouldBindJSON leaves in the form. -/
def zeroForm : CronForm := ⟨0, 0, "", "", "", "", 0, ""⟩

/-- A model.Cron record as kept in singleton.Crons; cronJobID is the live
timer handle assigned by the scheduler engine (0 when absent). -/
structure CronRecord where
  id : Nat
  taskType : Nat
  name : String
  scheduler : String
  command : String
  serversRaw : String
  cover : Nat
  pushSuccessful : Bool
  cronJobID : Nat
deriving DecidableEq

/-- Construction of the in-memory record from the bound form
(member_api.go, lines 314-324). -/
def recordOfForm (cf : CronForm) : CronRecord :=
  ⟨cf.id, cf.taskType, cf.name, cf.scheduler, cf.command, cf.serversRaw, cf.cover,
   cf.pushSuccessful == "on", 0⟩

/-- The singleton.Crons registry guarded by CronLock. -/
structure CronState where
  crons : Nat → Option CronRecord

/-- Database operations issued by addOrEditCron, in order. -/
inductive CronDBOp
  | beginTx
  | createCron
  | saveCron
  | commitTx
  | rollbackTx
deriving DecidableEq

/-- Result of the cron handlers: the registry after the call, the response,
the database operations issued, and the timer handles passed to Cron.Remove
(in call order). -/
structure CronOut where
  state : CronState
  resp : Resp
  dbOps : List CronDBOp
  removedHandles : List Nat

/-- The Cron.Remove calls the registry cleanup performs for a given job id:
the held handle when the record exists and its handle is nonzero, nothing
otherwise (member_api.go, lines 193-196 and 370-373). -/
def oldHandleRemovals (st : CronState) (j : Nat) : List Nat :=
  match st.crons j with
  | some old => if old.cronJobID = 0 then [] else [old.cronJobID]
  | none => []

/-- The write issued inside the transaction: Create for a zero id, Save
otherwise. -/
def cronWriteOp (cf : CronForm) : CronDBOp :=
  if cf.id = 0 then CronDBOp.createCron else CronDBOp.saveCron

/-- Core of addOrEditCron over the already-bound form (cf is the zero value
when binding failed, bindOk records whether it succeeded).  ctt and atc stand
for the constants model.CronTypeCronTask and model.CronCoverAlertTrigger; uok
resolves the ServersRaw unmarshal, dok the transactional Create/Save, afr the
Cron.AddFunc call (none = error, some h = assigned handle), cok the commit. -/
def addOrEditCronGo (ctt atc : Nat) (cf : CronForm) (bindOk uok dok : Bool)
    (afr : Option Nat) (cok : Bool) (st : CronState) : CronOut :=
  if cf.taskType = ctt ∧ cf.cover = atc then
    ⟨st, ⟨400, RespMsg.reqError⟩, [], []⟩
  else if bindOk = false ∨ uok = false then
    ⟨st, ⟨400, RespMsg.reqError⟩, [CronDBOp.beginTx, CronDBOp.rollbackTx], []⟩
  else if dok = false then
    ⟨st, ⟨400, RespMsg.reqError⟩, [CronDBOp.beginTx, cronWriteOp cf, CronDBOp.rollbackTx], []⟩
  else if cf.taskType = ctt ∧ afr = none then
    ⟨st, ⟨400, RespMsg.reqError⟩, [CronDBOp.beginTx, cronWriteOp cf, CronDBOp.rollbackTx], []⟩
  else if cok = false then
    ⟨st, ⟨400, RespMsg.reqError⟩, [CronDBOp.beginTx, cronWriteOp cf, CronDBOp.commitTx], []⟩
  else
    ⟨⟨fupd st.crons cf.id
        (some (if cf.taskType = ctt then { recordOfForm cf with cronJobID := afr.getD 0 }
               else recordOfForm cf))⟩,
     ⟨200, RespMsg.success⟩, [CronDBOp.beginTx, cronWriteOp cf, CronDBOp.commitTx],
     oldHandleRemovals st cf.id⟩

/-- Embedding of addOrEditCron (member_api.go, lines 310-381). -/
def addOrEditCron (ctt atc : Nat) (bind : Option CronForm) (uok dok : Bool)
    (afr : Option Nat) (cok : Bool) (st : CronState) : CronOut :=
  addOrEditCronGo ctt atc (bind.getD zeroForm) bind.isSome uok dok afr cok st

/-- External calls issued by the generic delete handler. -/
inductive DelEffect
  | dbDeleteNAT (id : Nat)
  | onNATUpdate
  | dbDeleteMonitor (id : Nat)
  | onMonitorDelete (id : Nat)
  | dbDeleteMonitorHistory (id : Nat)
  | dbDeleteCron (id : Nat)
  | dbDeleteAlertRule (id : Nat)
  | onDeleteAlert (id : Nat)
deriving DecidableEq

/-- Result of the generic delete handler. -/
structure DelOut where
  state : CronState
  resp : Resp
  effects : List DelEffect
  removedHandles : List Nat

/-- Embedding of the generic delete handler (member_api.go, lines 164-215).
The switch on the model path parameter is an if-chain; dbOk resolves the
first database delete of the matched case, dbOk2 the monitor-history delete.
Only the cron case touches in-memory state. -/
def deleteHandler (modelParam : String) (id : Nat) (dbOk dbOk2 : Bool) (st : CronState) :
    DelOut :=
  if id < 1 then ⟨st, ⟨400, RespMsg.badServerId⟩, [], []⟩
  else if modelParam = "nat" then
    if dbOk = true then
      ⟨st, ⟨200, RespMsg.success⟩, [DelEffect.dbDeleteNAT id, DelEffect.onNATUpdate], []⟩
    else ⟨st, ⟨400, RespMsg.dbError⟩, [DelEffect.dbDeleteNAT id], []⟩
  else if modelParam = "monitor" then
    if dbOk = true then
      if dbOk2 = true then
        ⟨st, ⟨200, RespMsg.success⟩,
         [DelEffect.dbDeleteMonitor id, DelEffect.onMonitorDelete id,
          DelEffect.dbDeleteMonitorHistory id], []⟩
      else
        ⟨st, ⟨400, RespMsg.dbError⟩,
         [DelEffect.dbDeleteMonitor id, DelEffect.onMonitorDelete id,
          DelEffect.dbDeleteMonitorHistory id], []⟩
    else ⟨st, ⟨400, RespMsg.dbError⟩, [DelEffect.dbDeleteMonitor id], []⟩
  else if modelParam = "cron" then
    if dbOk = true then
      ⟨⟨fupd st.crons id none⟩, ⟨200, RespMsg.success⟩, [DelEffect.dbDeleteCron id],
       oldHandleRemovals st id⟩
    else ⟨st, ⟨400, RespMsg.dbError⟩, [DelEffect.dbDeleteCron id], []⟩
  else if modelParam = "alert-rule" then
    if dbOk = true then
      ⟨st, ⟨200, RespMsg.success⟩, [DelEffect.dbDeleteAlertRule id, DelEffect.onDeleteAlert id], []⟩
    else ⟨st, ⟨400, RespMsg.dbError⟩, [DelEffect.dbDeleteAlertRule id], []⟩
  else ⟨st, ⟨200, RespMsg.success⟩, [], []⟩

/-- A concrete server with a live, healthy task stream, used as witness. -/
def serverWithStream : Server := ⟨some ⟨true⟩⟩

/-- A concrete ServerList with exactly agent 1 connected, used as witness. -/
def serverListW : Nat → Option Server :=
  fun id => if id = 1 then some serverWithStream else none

/-- The token state with no tokens. -/
def emptyTokenState : TokenState := ⟨fun _ => none, fun _ => none⟩

/-- A concrete token owned by user 1, used as witness. -/
def tokenW : ApiToken := ⟨1, "t1", "n1"⟩

/-- A concrete token state holding exactly tokenW, used as witness. -/
def tokenStateW : TokenState :=
  ⟨fun t => if t = "t1" then some tokenW else none,
   fun u => if u = 1 then some ["t1"] else none⟩

/-- A concrete cron record with timer handle 7, used as witness. -/
def cronRecordW : CronRecord := ⟨5, 0, "j", "* * * * * *", "cmd", "[]", 1, true, 7⟩

/-- A concrete cron registry holding exactly job 5, used as witness. -/
def cronStateW : CronState := ⟨fun j => if j = 5 then some cronRecordW else none⟩

/-- A concrete trigger-task form for job 5, used as witness. -/
def cronFormW : CronForm := ⟨5, 1, "j", "", "cmd", "[]", 1, "on"⟩

/-- A concrete misconfigured form: cron-task type combined with the
alert-trigger cover, used as witness. -/
def cronFormBad : CronForm := ⟨5, 0, "j", "@every 1m", "cmd", "[]", 2, ""⟩

theorem fupd_self {α β : Type} [DecidableEq α] (m : α → β) (k : α) (v : β) :
    fupd m k v k = v := by
  simp [fupd]

theorem fupd_other {α β : Type} [DecidableEq α] {m : α → β} {k x : α} {v : β} (h : x ≠ k) :
    fupd m k v x = m x := by
  simp [fupd, h]

/-- Claim C5: the protocol multiplexer routes a request to the streaming RPC
handler if and only if its Content-Type header equals application/grpc and
its URL path begins with a slash followed by the RPC service name; every
other request goes to the plain HTTP handler. -/
theorem mux_routes_by_content_type_and_path (serviceName : String) (r : HTTPRequest) :
    (newHTTPandGRPCMux serviceName r = RouteTarget.grpcHandler ↔
      (r.contentType = "application/grpc" ∧ r.urlPath.startsWith ("/" ++ serviceName) = true)) ∧
    (newHTTPandGRPCMux serviceName r = RouteTarget.httpHandler ↔
      ¬(r.contentType = "application/grpc" ∧ r.urlPath.startsWith ("/" ++ serviceName) = true)) := by
  by_cases h : (r.contentType == "application/grpc" && r.urlPath.startsWith ("/" ++ serviceName)) = true
  · have hp : r.contentType = "application/grpc" ∧ r.urlPath.startsWith ("/" ++ serviceName) = true := by
      simpa [Bool.and_eq_true, beq_iff_eq] using h
    unfold newHTTPandGRPCMux
    rw [if_pos h]
    exact ⟨by simp [hp], by simp [hp]⟩
  · have hp : ¬(r.contentType = "application/grpc" ∧ r.urlPath.startsWith ("/" ++ serviceName) = true) := by
      simpa [Bool.and_eq_true, beq_iff_eq] using h
    unfold newHTTPandGRPCMux
    rw [if_neg h]
    exact ⟨by simp [hp], by simp [hp]⟩

/-- Instantiation of the multiplexer routing theorem at a concrete gRPC
request. -/
theorem mux_routes_by_content_type_and_path_witness :
    (newHTTPandGRPCMux "proto.NezhaService" ⟨"application/grpc", "/proto.NezhaService/ReportTask"⟩ =
        RouteTarget.grpcHandler ↔
      (HTTPRequest.contentType ⟨"application/grpc", "/proto.NezhaService/ReportTask"⟩ = "application/grpc" ∧
        (HTTPRequest.urlPath ⟨"application/grpc", "/proto.NezhaService/ReportTask"⟩).startsWith
          ("/" ++ "proto.NezhaService") = true)) ∧
    (newHTTPandGRPCMux "proto.NezhaService" ⟨"application/grpc", "/proto.NezhaService/ReportTask"⟩ =
        RouteTarget.httpHandler ↔
      ¬(HTTPRequest.contentType ⟨"application/grpc", "/proto.NezhaService/ReportTask"⟩ = "application/grpc" ∧
        (HTTPRequest.urlPath ⟨"application/grpc", "/proto.NezhaService/ReportTask"⟩).startsWith
          ("/" ++ "proto.NezhaService") = true)) :=
  mux_routes_by_content_type_and_path "proto.NezhaService"
    ⟨"application/grpc", "/proto.NezhaService/ReportTask"⟩

/-- Claim C7: on every execution of the fm relay handler in which GetStream
succeeds, CloseStream runs exactly once before the handler returns, on every
exit path (upgrade failure, UserConnected failure, end of StartStream). -/
theorem fm_closes_session_exactly_once (upgradeOk userConnectedOk : Bool) :
    (fm true upgradeOk userConnectedOk).count FMEvent.closeStreamCall = 1 := by
  cases upgradeOk <;> cases userConnectedOk <;> rfl

/-- Instantiation of the fm close-once theorem at a concrete exit path. -/
theorem fm_closes_session_exactly_once_witness :
    (fm true false true).count FMEvent.closeStreamCall = 1 :=
  fm_closes_session_exactly_once false true

/-- Claim C1 counterexample: a createFM request whose agent id fails to parse
returns after creating the session, and the session is still registered —
it is not destroyed as the claim states. -/
theorem createFM_counterexample :
    (createFM true (some "sid1") none (fun _ => none) (fun _ => false)).2 =
      CreateFMResult.errParseId ∧
    (createFM true (some "sid1") none (fun _ => none) (fun _ => false)).1 "sid1" = true := by
  constructor <;> decide

/-- Claim C1 amended: when the agent-open dispatch of createFM fails (the
agent id does not parse, the agent is absent from ServerList, or the stream
send errors), the handler returns without success but the created session
stays registered; no exit path destroys it. -/
theorem createFM_dispatch_failure_session_remains
    (genUUID : Option String) (idParse : Option Int)
    (serverList : Nat → Option Server) (sessions : String → Bool) (sid : String)
    (hgen : genUUID = some sid)
    (hfail : idParse = none ∨
             (∃ i, idParse = some i ∧ serverList (intToUInt64 i) = none) ∨
             (∃ i sv stream, idParse = some i ∧ serverList (intToUInt64 i) = some sv ∧
                sv.taskStream = some stream ∧ stream.sendOk = false)) :
    (createFM true genUUID idParse serverList sessions).1 sid = true ∧
    ∀ s2, (createFM true genUUID idParse serverList sessions).2 ≠ CreateFMResult.success s2 := by
  subst hgen
  rcases hfail with h | ⟨i, hi, hsv⟩ | ⟨i, sv, stream, hi, hsv, hts, hsend⟩
  · subst h
    exact ⟨by simp [createFM, fupd], fun s2 => by simp [createFM]⟩
  · subst hi
    exact ⟨by simp [createFM, hsv, fupd], fun s2 => by simp [createFM, hsv]⟩
  · subst hi
    exact ⟨by simp [createFM, hsv, hts, hsend, fupd],
           fun s2 => by simp [createFM, hsv, hts, hsend]⟩

/-- Instantiation of the amended createFM theorem at a concrete failed
dispatch. -/
theorem createFM_dispatch_failure_session_remains_witness :
    (createFM true (some "w1") none (fun _ => none) (fun _ => false)).1 "w1" = true ∧
    ∀ s2, (createFM true (some "w1") none (fun _ => none) (fun _ => false)).2 ≠
      CreateFMResult.success s2 :=
  createFM_dispatch_failure_session_remains (some "w1") none (fun _ => none) (fun _ => false)
    "w1" rfl (Or.inl rfl)

/-- Claim C9: a deleteToken request whose token is not a key of the primary
map leaves both indices unchanged, issues no database delete, and answers
with the not-found error (the empty-token guard is unreachable through the
token route, whose path parameter is nonempty). -/
theorem deleteToken_unknown_token_noop (tok : String) (s : TokenState)
    (hmiss : s.apiTokenList tok = none) :
    (deleteToken tok s).1 = s ∧ (deleteToken tok s).2.2 = false ∧
    (deleteToken tok s).2.1.code = 400 ∧
    (tok ≠ "" → (deleteToken tok s).2.1 = ⟨400, RespMsg.tokenNotExist⟩) := by
  by_cases he : tok = ""
  · subst he
    simp [deleteToken]
  · simp [deleteToken, he, hmiss]

/-- Instantiation of the deleteToken not-found theorem at a concrete missing
token. -/
theorem deleteToken_unknown_token_noop_witness :
    (deleteToken "x" emptyTokenState).1 = emptyTokenState ∧
    (deleteToken "x" emptyTokenState).2.2 = false ∧
    (deleteToken "x" emptyTokenState).2.1.code = 400 ∧
    ("x" ≠ "" → (deleteToken "x" emptyTokenState).2.1 = ⟨400, RespMsg.tokenNotExist⟩) :=
  deleteToken_unknown_token_noop "x" emptyTokenState rfl

/-- Claim C10: a delete request whose model parameter is outside the handled
set but whose id is at least 1 falls through the switch with a nil error:
the handler answers 200 while performing no deletion and no mutation. -/
theorem delete_unknown_model_silently_succeeds (modelParam : String) (id : Nat)
    (dbOk dbOk2 : Bool) (st : CronState)
    (h1 : modelParam ≠ "nat") (h2 : modelParam ≠ "monitor") (h3 : modelParam ≠ "cron")
    (h4 : modelParam ≠ "alert-rule") (hid : 1 ≤ id) :
    (deleteHandler modelParam id dbOk dbOk2 st).resp = ⟨200, RespMsg.success⟩ ∧
    (deleteHandler modelParam id dbOk dbOk2 st).state = st ∧
    (deleteHandler modelParam id dbOk dbOk2 st).effects = [] ∧
    (deleteHandler modelParam id dbOk dbOk2 st).removedHandles = [] := by
  have hlt : ¬ id < 1 := by omega
  simp [deleteHandler, hlt, h1, h2, h3, h4]

/-- Instantiation of the unknown-model delete theorem at a concrete unhandled
model name. -/
theorem delete_unknown_model_silently_succeeds_witness :
    (deleteHandler "server" 1 true true cronStateW).resp = ⟨200, RespMsg.success⟩ ∧
    (deleteHandler "server" 1 true true cronStateW).state = cronStateW ∧
    (deleteHandler "server" 1 true true cronStateW).effects = [] ∧
    (deleteHandler "server" 1 true true cronStateW).removedHandles = [] :=
  delete_unknown_model_silently_succeeds "server" 1 true true cronStateW
    (by decide) (by decide) (by decide) (by decide) (by decide)

/-- Claim C3: the forceUpdate fan-out produces exactly one per-target result
per input element, in input order; a missing or streamless agent is reported
offline, a failed send is reported as delivery failed, and no failure stops
the remaining targets. -/
theorem forceUpdate_one_result_per_target (sl : Nat → Option Server) (ids : List Nat) :
    (forceUpdate sl ids).length = ids.length ∧
    (forceUpdate sl ids).map Prod.fst = ids ∧
    (∀ p, p ∈ forceUpdate sl ids → p.2 = forceUpdateStep sl p.1) ∧
    (∀ id, forceUpdateStep sl id = UpdateOutcome.offline ↔
      (sl id = none ∨ ∃ sv, sl id = some sv ∧ sv.taskStream = none)) ∧
    (∀ id, forceUpdateStep sl id = UpdateOutcome.deliveryFailed ↔
      (∃ sv stream, sl id = some sv ∧ sv.taskStream = some stream ∧ stream.sendOk = false)) := by
  refine ⟨by simp [forceUpdate], ?_, ?_, ?_, ?_⟩
  · induction ids with
    | nil => rfl
    | cons a t ih => simpa [forceUpdate] using ih
  · intro p hp
    simp only [forceUpdate] at hp
    rcases List.mem_map.mp hp with ⟨id, _, rfl⟩
    rfl
  · intro id
    cases hsl : sl id with
    | none => simp [forceUpdateStep, hsl]
    | some sv =>
      cases hts : sv.taskStream with
      | none => simp [forceUpdateStep, hsl, hts]
      | some stream => cases hsend : stream.sendOk <;> simp [forceUpdateStep, hsl, hts, hsend]
  · intro id
    cases hsl : sl id with
    | none => simp [forceUpdateStep, hsl]
    | some sv =>
      cases hts : sv.taskStream with
      | none => simp [forceUpdateStep, hsl, hts]
      | some stream => cases hsend : stream.sendOk <;> simp [forceUpdateStep, hsl, hts, hsend]

/-- Instantiation of the forceUpdate fan-out theorem at a two-element input
with one reachable and one absent agent. -/
theorem forceUpdate_one_result_per_target_witness :
    (forceUpdate serverListW [1, 2]).length = ([1, 2] : List Nat).length ∧
    (forceUpdate serverListW [1, 2]).map Prod.fst = [1, 2] ∧
    (∀ p, p ∈ forceUpdate serverListW [1, 2] → p.2 = forceUpdateStep serverListW p.1) ∧
    (∀ id, forceUpdateStep serverListW id = UpdateOutcome.offline ↔
      (serverListW id = none ∨ ∃ sv, serverListW id = some sv ∧ sv.taskStream = none)) ∧
    (∀ id, forceUpdateStep serverListW id = UpdateOutcome.deliveryFailed ↔
      (∃ sv stream, serverListW id = some sv ∧ sv.taskStream = some stream ∧
        stream.sendOk = false)) :=
  forceUpdate_one_result_per_target serverListW [1, 2]

theorem sendDepths_forceUpdateTarget (sl : Nat → Option Server) (id : Nat)
    (rest : List LockEvent) :
    sendDepths 0 (forceUpdateTargetEvents sl id ++ rest) =
      (match sl id with
       | some sv =>
         match sv.taskStream with
         | some _ => [0]
         | none => ([] : List Nat)
       | none => []) ++ sendDepths 0 rest := by
  cases hsl : sl id with
  | none => simp [forceUpdateTargetEvents, hsl, sendDepths]
  | some sv =>
    cases hts : sv.taskStream with
    | none => simp [forceUpdateTargetEvents, hsl, hts, sendDepths]
    | some stream => simp [forceUpdateTargetEvents, hsl, hts, sendDepths]

theorem forceUpdate_sends_outside_lock (sl : Nat → Option Server) (ids : List Nat) :
    (sendDepths 0 (forceUpdateEvents sl ids)).all (fun d => d == 0) = true := by
  induction ids with
  | nil => rfl
  | cons a t ih =>
    simp only [forceUpdateEvents, List.map_cons, List.flatten_cons]
    rw [sendDepths_forceUpdateTarget sl a, List.all_append]
    have h2 := ih
    simp only [forceUpdateEvents] at h2
    rw [h2, Bool.and_true]
    cases sl a with
    | none => rfl
    | some sv =>
      obtain ⟨ts⟩ := sv
      cases ts with
      | none => rfl
      | some stream => rfl

theorem reportServerEvents_all_send (servers : List (Option Server)) :
    ∀ e ∈ (servers.map reportServerEvents).flatten, e = LockEvent.sendEv := by
  induction servers with
  | nil => simp
  | cons sv t ih =>
    intro e he
    simp only [List.map_cons, List.flatten_cons, List.mem_append] at he
    rcases he with he | he
    · cases sv with
      | none => simp [reportServerEvents] at he
      | some server =>
        cases hts : server.taskStream with
        | none => simp [reportServerEvents, hts] at he
        | some stream => simpa [reportServerEvents, hts] using he
    · exact ih e he

theorem sendDepths_all_send (body : List LockEvent) (d : Nat) (rest : List LockEvent) :
    (∀ e ∈ body, e = LockEvent.sendEv) →
    sendDepths d (body ++ rest) = body.map (fun _ => d) ++ sendDepths d rest := by
  induction body with
  | nil => intro _; simp
  | cons e t ih =>
    intro h
    have he : e = LockEvent.sendEv := h e (List.mem_cons_self e t)
    subst he
    simp only [List.cons_append, sendDepths, List.map_cons, List.append_eq]
    rw [ih (fun x hx => h x (List.mem_cons_of_mem _ hx))]

/-- Claim C6 counterexample: the periodic report-host-info fan-out performs a
stream Send while holding the server registry read lock — with one connected
agent its single Send occurs at lock depth 1, not 0. -/
theorem report_send_under_lock_counterexample :
    sendDepths 0 (dispatchReportInfoTask [some serverWithStream]) = [1] := by
  rfl

/-- Claim C6 amended: the force-update fan-out releases the server registry
lock before every stream Send (all its sends occur at lock depth 0), but the
periodic report-host-info fan-out performs every one of its sends while
holding the registry read lock (each send occurs at lock depth 1). -/
theorem dispatch_lock_discipline (sl : Nat → Option Server) (ids : List Nat)
    (servers : List (Option Server)) :
    (sendDepths 0 (forceUpdateEvents sl ids)).all (fun d => d == 0) = true ∧
    sendDepths 0 (dispatchReportInfoTask servers) =
      ((servers.map reportServerEvents).flatten).map (fun _ => 1) := by
  refine ⟨forceUpdate_sends_outside_lock sl ids, ?_⟩
  simp only [dispatchReportInfoTask, List.singleton_append, List.cons_append, List.nil_append]
  have h1 : sendDepths 0 (LockEvent.rlockEv ::
      ((servers.map reportServerEvents).flatten ++ [LockEvent.runlockEv])) =
      sendDepths 1 ((servers.map reportServerEvents).flatten ++ [LockEvent.runlockEv]) := rfl
  rw [h1, sendDepths_all_send _ 1 _ (reportServerEvents_all_send servers)]
  simp [sendDepths]

/-- Instantiation of the amended lock-discipline theorem at concrete inputs. -/
theorem dispatch_lock_discipline_witness :
    (sendDepths 0 (forceUpdateEvents serverListW [1, 2])).all (fun d => d == 0) = true ∧
    sendDepths 0 (dispatchReportInfoTask [some serverWithStream, none]) =
      (([some serverWithStream, none].map reportServerEvents).flatten).map (fun _ => 1) :=
  dispatch_lock_discipline serverListW [1, 2] [some serverWithStream, none]

/-- Claim C4: replacing a job through addOrEditCron and removing one through
the cron case of the delete handler deregister exactly the previously held
nonzero timer handle from the cron engine before the in-memory record is
replaced or discarded; a zero handle or an absent record triggers no
Cron.Remove call. -/
theorem cron_ops_deregister_old_timer
    (ctt atc : Nat) (cf : CronForm) (uok dok cok : Bool) (afr : Option Nat) (st : CronState)
    (hrej : ¬(cf.taskType = ctt ∧ cf.cover = atc))
    (huok : uok = true) (hdok : dok = true) (hcok : cok = true)
    (haf : cf.taskType = ctt → afr ≠ none)
    (id2 : Nat) (hid2 : 1 ≤ id2) (dbOk2x : Bool) (st2 : CronState) :
    (addOrEditCron ctt atc (some cf) uok dok afr cok st).removedHandles =
      oldHandleRemovals st cf.id ∧
    ((addOrEditCron ctt atc (some cf) uok dok afr cok st).state.crons cf.id).isSome = true ∧
    (deleteHandler "cron" id2 true dbOk2x st2).removedHandles = oldHandleRemovals st2 id2 ∧
    (deleteHandler "cron" id2 true dbOk2x st2).state.crons id2 = none := by
  have h4 : ¬(cf.taskType = ctt ∧ afr = none) := fun hh => haf hh.1 hh.2
  have hlt : ¬ id2 < 1 := by omega
  subst huok hdok hcok
  refine ⟨?_, ?_, ?_, ?_⟩
  · simp [addOrEditCron, addOrEditCronGo, hrej, h4]
  · simp [addOrEditCron, addOrEditCronGo, hrej, h4, fupd]
  · simp [deleteHandler, hlt]
  · simp [deleteHandler, hlt, fupd]

/-- Instantiation of the timer-deregistration theorem: replacing job 5
(held handle 7) and deleting job 5. -/
theorem cron_ops_deregister_old_timer_witness :
    (addOrEditCron 0 2 (some cronFormW) true true none true cronStateW).removedHandles =
      oldHandleRemovals cronStateW cronFormW.id ∧
    ((addOrEditCron 0 2 (some cronFormW) true true none true cronStateW).state.crons
        cronFormW.id).isSome = true ∧
    (deleteHandler "cron" 5 true true cronStateW).removedHandles =
      oldHandleRemovals cronStateW 5 ∧
    (deleteHandler "cron" 5 true true cronStateW).state.crons 5 = none :=
  cron_ops_deregister_old_timer 0 2 cronFormW true true true none cronStateW
    (by decide) rfl rfl rfl (fun h => absurd h (by decide)) 5 (by decide) true cronStateW

/-- Claim C8: a job whose task type is the cron-task type and whose cover is
the alert-trigger mode is rejected by addOrEditCron before the transaction
opens: the caller gets an error and no database operation and no registry
change happens. -/
theorem cron_task_with_alert_trigger_rejected
    (ctt atc : Nat) (cf : CronForm) (uok dok : Bool) (afr : Option Nat) (cok : Bool)
    (st : CronState) (ht : cf.taskType = ctt) (hc : cf.cover = atc) :
    (addOrEditCron ctt atc (some cf) uok dok afr cok st).resp = ⟨400, RespMsg.reqError⟩ ∧
    (addOrEditCron ctt atc (some cf) uok dok afr cok st).state = st ∧
    (addOrEditCron ctt atc (some cf) uok dok afr cok st).dbOps = [] ∧
    (addOrEditCron ctt atc (some cf) uok dok afr cok st).removedHandles = [] := by
  simp [addOrEditCron, addOrEditCronGo, ht, hc]

/-- Instantiation of the misconfigured-job rejection theorem at a concrete
form. -/
theorem cron_task_with_alert_trigger_rejected_witness :
    (addOrEditCron 0 2 (some cronFormBad) true true none true cronStateW).resp =
      ⟨400, RespMsg.reqError⟩ ∧
    (addOrEditCron 0 2 (some cronFormBad) true true none true cronStateW).state = cronStateW ∧
    (addOrEditCron 0 2 (some cronFormBad) true true none true cronStateW).dbOps = [] ∧
    (addOrEditCron 0 2 (some cronFormBad) true true none true cronStateW).removedHandles = [] :=
  cron_task_with_alert_trigger_rejected 0 2 cronFormBad true true none true cronStateW rfl rfl

theorem mem_of_mem_eraseFirst {t a : String} : ∀ l : List String, a ∈ eraseFirst l t → a ∈ l := by
  intro l
  induction l with
  | nil => intro h; simp [eraseFirst] at h
  | cons x xs ih =>
    intro h
    by_cases hx : x = t
    · subst hx
      simp only [eraseFirst, if_pos rfl] at h
      exact List.mem_cons_of_mem _ h
    · simp only [eraseFirst, if_neg hx] at h
      rcases List.mem_cons.mp h with h1 | h1
      · exact h1 ▸ List.mem_cons_self _ _
      · exact List.mem_cons_of_mem _ (ih h1)

theorem nodup_eraseFirst (t : String) : ∀ l : List String, l.Nodup → (eraseFirst l t).Nodup := by
  intro l
  induction l with
  | nil => intro _; simp [eraseFirst]
  | cons x xs ih =>
    intro h
    rcases List.nodup_cons.mp h with ⟨hx, hxs⟩
    by_cases hxt : x = t
    · subst hxt
      simpa [eraseFirst] using hxs
    · simp only [eraseFirst, if_neg hxt]
      exact List.nodup_cons.mpr ⟨fun hmem => hx (mem_of_mem_eraseFirst xs hmem), ih hxs⟩

theorem not_mem_eraseFirst_self (t : String) : ∀ l : List String, l.Nodup → t ∉ eraseFirst l t := by
  intro l
  induction l with
  | nil => intro _; simp [eraseFirst]
  | cons x xs ih =>
    intro h
    rcases List.nodup_cons.mp h with ⟨hx, hxs⟩
    by_cases hxt : x = t
    · subst hxt
      simpa [eraseFirst] using hx
    · simp only [eraseFirst, if_neg hxt]
      intro hmem
      rcases List.mem_cons.mp hmem with h1 | h1
      · exact hxt h1.symm
      · exact ih hxs h1

theorem mem_eraseFirst_of_ne {t a : String} (hne : a ≠ t) :
    ∀ l : List String, a ∈ l → a ∈ eraseFirst l t := by
  intro l
  induction l with
  | nil => intro h; simp at h
  | cons x xs ih =>
    intro h
    by_cases hxt : x = t
    · subst hxt
      rcases List.mem_cons.mp h with h1 | h1
      · exact absurd h1 hne
      · simpa [eraseFirst] using h1
    · simp only [eraseFirst, if_neg hxt]
      rcases List.mem_cons.mp h with h1 | h1
      · exact h1 ▸ List.mem_cons_self _ _
      · exact List.mem_cons_of_mem _ (ih h1)

theorem tokenInv_dualIndexOk (s : TokenState) (hs : tokenInv s) : dualIndexOk s := by
  obtain ⟨hrev, hcov⟩ := hs
  refine ⟨hcov, fun u l hl => ?_⟩
  obtain ⟨h1, _, h3⟩ := hrev u l hl
  refine ⟨h1, fun t ht => ?_⟩
  rcases h3 t ht with ⟨tk, htk, _⟩
  simp [htk]

theorem issueCore_preserves_inv (s : TokenState) (hs : tokenInv s) (u : Nat) (note : String)
    (g : String) (hfresh : s.apiTokenList g = none) :
    tokenInv (issueCore u note g s) := by
  obtain ⟨hrev, hcov⟩ := hs
  have hgnotmem : ∀ u2 l, s.userIDToApiTokenList u2 = some l → g ∉ l := by
    intro u2 l hl hg
    rcases (hrev u2 l hl).2.2 g hg with ⟨tk, htk, _⟩
    rw [hfresh] at htk
    exact Option.noConfusion htk
  have hOld : ((s.userIDToApiTokenList u).getD []).Nodup ∧
      (∀ t ∈ (s.userIDToApiTokenList u).getD [],
        ∃ tk, s.apiTokenList t = some tk ∧ tk.userID = u) ∧
      g ∉ (s.userIDToApiTokenList u).getD [] := by
    cases hRu : s.userIDToApiTokenList u with
    | none => simp
    | some l0 =>
      obtain ⟨_, h2, h3⟩ := hrev u l0 hRu
      exact ⟨by simpa using h2, by simpa using h3, by simpa using hgnotmem u l0 hRu⟩
  constructor
  · intro u2 l hl
    simp only [issueCore] at hl
    by_cases hu : u2 = u
    · subst hu
      rw [fupd_self] at hl
      injection hl with hl2
      subst hl2
      refine ⟨by simp, ?_, ?_⟩
      · exact List.Nodup.append hOld.1 (List.nodup_singleton g)
          (fun a ha hb => hOld.2.2 ((List.mem_singleton.mp hb) ▸ ha))
      · intro t ht
        rcases List.mem_append.mp ht with h1 | h1
        · obtain ⟨tk, htk, hut⟩ := hOld.2.1 t h1
          have htg : t ≠ g := by
            intro heq
            rw [heq, hfresh] at htk
            exact Option.noConfusion htk
          exact ⟨tk, by simp only [issueCore]; rw [fupd_other htg]; exact htk, hut⟩
        · have : t = g := List.mem_singleton.mp h1
          subst this
          exact ⟨⟨u2, t, note⟩, by simp only [issueCore]; rw [fupd_self], rfl⟩
    · rw [fupd_other hu] at hl
      obtain ⟨h1, h2, h3⟩ := hrev u2 l hl
      refine ⟨h1, h2, fun t ht => ?_⟩
      obtain ⟨tk, htk, hut⟩ := h3 t ht
      have htg : t ≠ g := by
        intro heq
        rw [heq, hfresh] at htk
        exact Option.noConfusion htk
      exact ⟨tk, by simp only [issueCore]; rw [fupd_other htg]; exact htk, hut⟩
  · intro t tk h2
    simp only [issueCore] at h2 ⊢
    by_cases htg : t = g
    · subst htg
      rw [fupd_self] at h2
      injection h2 with h3
      subst h3
      exact ⟨((s.userIDToApiTokenList u).getD []) ++ [t], by rw [fupd_self], by simp⟩
    · rw [fupd_other htg] at h2
      obtain ⟨l0, hR0, hm0⟩ := hcov t tk h2
      by_cases hu2 : tk.userID = u
      · rw [hu2] at hR0 ⊢
        refine ⟨((s.userIDToApiTokenList u).getD []) ++ [g], by rw [fupd_self], ?_⟩
        rw [hR0]
        exact List.mem_append_left _ (by simpa using hm0)
      · rw [fupd_other hu2]
        exact ⟨l0, hR0, hm0⟩

theorem rev_entry_survives (s : TokenState) (hrev : revListOk s)
    (tok : String) (tk : ApiToken) (hA : s.apiTokenList tok = some tk)
    (u2 : Nat) (l : List String) (hl : s.userIDToApiTokenList u2 = some l)
    (hu : u2 ≠ tk.userID) :
    l ≠ [] ∧ l.Nodup ∧
      ∀ t ∈ l, ∃ tk2, fupd s.apiTokenList tok none t = some tk2 ∧ tk2.userID = u2 := by
  obtain ⟨h1, h2, h3⟩ := hrev u2 l hl
  refine ⟨h1, h2, fun t ht => ?_⟩
  obtain ⟨tk2, htk2, hut⟩ := h3 t ht
  have htne : t ≠ tok := by
    intro heq
    subst heq
    rw [hA] at htk2
    injection htk2 with h4
    subst h4
    exact hu hut.symm
  exact ⟨tk2, by rw [fupd_other htne]; exact htk2, hut⟩

theorem deleteToken_preserves_inv (tok : String) (s : TokenState) (hs : tokenInv s) :
    tokenInv (deleteToken tok s).1 := by
  obtain ⟨hrev, hcov⟩ := hs
  by_cases he : tok = ""
  · simpa [deleteToken, he] using (⟨hrev, hcov⟩ : tokenInv s)
  · cases hA : s.apiTokenList tok with
    | none => simpa [deleteToken, he, hA] using (⟨hrev, hcov⟩ : tokenInv s)
    | some tk =>
      obtain ⟨L, hR, hmemL⟩ := hcov tok tk hA
      obtain ⟨hLne, hLnd, hLowner⟩ := hrev tk.userID L hR
      have hgetD : (s.userIDToApiTokenList tk.userID).getD [] = L := by rw [hR]; rfl
      have hred : (deleteToken tok s).1 =
          ⟨fupd s.apiTokenList tok none,
           prune tk.userID (removeFromRev tk.userID tok s.userIDToApiTokenList)⟩ := by
        simp [deleteToken, he, hA]
      have hrm : removeFromRev tk.userID tok s.userIDToApiTokenList =
          fupd s.userIDToApiTokenList tk.userID (some (eraseFirst L tok)) := by
        unfold removeFromRev
        rw [hgetD, if_pos hmemL]
      rw [hred, hrm]
      unfold prune
      rw [fupd_self, Option.getD_some]
      by_cases hE : eraseFirst L tok = []
      · rw [if_pos (by rw [hE]; rfl)]
        constructor
        · intro u2 l hl
          dsimp only at hl ⊢
          by_cases hu : u2 = tk.userID
          · subst hu
            rw [fupd_self] at hl
            exact Option.noConfusion hl
          · rw [fupd_other hu, fupd_other hu] at hl
            exact rev_entry_survives s hrev tok tk hA u2 l hl hu
        · intro t tk2 h2
          dsimp only at h2 ⊢
          have htne : t ≠ tok := by
            intro heq
            subst heq
            rw [fupd_self] at h2
            exact Option.noConfusion h2
          rw [fupd_other htne] at h2
          obtain ⟨l0, hR0, hm0⟩ := hcov t tk2 h2
          by_cases hu : tk2.userID = tk.userID
          · rw [hu] at hR0
            rw [hR] at hR0
            injection hR0 with h5
            rw [← h5] at hm0
            have hcontra : t ∈ eraseFirst L tok := mem_eraseFirst_of_ne htne L hm0
            rw [hE] at hcontra
            simp at hcontra
          · rw [fupd_other hu, fupd_other hu]
            exact ⟨l0, hR0, hm0⟩
      · rw [if_neg (fun hlen => hE (List.length_eq_zero.mp hlen))]
        constructor
        · intro u2 l hl
          dsimp only at hl ⊢
          by_cases hu : u2 = tk.userID
          · subst hu
            rw [fupd_self] at hl
            injection hl with hl2
            subst hl2
            refine ⟨hE, nodup_eraseFirst tok L hLnd, ?_⟩
            intro t ht
            have htL : t ∈ L := mem_of_mem_eraseFirst L ht
            have htne : t ≠ tok := by
              intro heq
              subst heq
              exact not_mem_eraseFirst_self t L hLnd ht
            obtain ⟨tk2, htk2, hut⟩ := hLowner t htL
            exact ⟨tk2, by rw [fupd_other htne]; exact htk2, hut⟩
          · rw [fupd_other hu] at hl
            exact rev_entry_survives s hrev tok tk hA u2 l hl hu
        · intro t tk2 h2
          dsimp only at h2 ⊢
          have htne : t ≠ tok := by
            intro heq
            subst heq
            rw [fupd_self] at h2
            exact Option.noConfusion h2
          rw [fupd_other htne] at h2
          obtain ⟨l0, hR0, hm0⟩ := hcov t tk2 h2
          by_cases hu : tk2.userID = tk.userID
          · rw [hu] at hR0
            rw [hR] at hR0
            injection hR0 with h5
            rw [← h5] at hm0
            rw [hu, fupd_self]
            exact ⟨eraseFirst L tok, rfl, mem_eraseFirst_of_ne htne L hm0⟩
          · rw [fupd_other hu]
            exact ⟨l0, hR0, hm0⟩

theorem tokenStateW_inv : tokenInv tokenStateW := by
  constructor
  · intro u l hl
    simp only [tokenStateW] at hl
    by_cases hu : u = 1
    · subst hu
      simp only [if_pos rfl] at hl
      injection hl with hl2
      subst hl2
      refine ⟨by simp, by simp, ?_⟩
      intro t ht
      have ht1 : t = "t1" := by simpa using ht
      subst ht1
      exact ⟨tokenW, by simp [tokenStateW], rfl⟩
    · rw [if_neg hu] at hl
      exact Option.noConfusion hl
  · intro t tk h
    simp only [tokenStateW] at h
    by_cases ht : t = "t1"
    · subst ht
      simp only [if_pos rfl] at h
      injection h with h2
      subst h2
      exact ⟨["t1"], by simp [tokenStateW, tokenW], by simp⟩
    · rw [if_neg ht] at h
      exact Option.noConfusion h

/-- Claim C2: issueNewToken and deleteToken preserve the dual-index
invariant: afterward a token is a key of the primary map exactly when it
appears in the owning user reverse list, and no user is left mapping to an
empty list (an emptied list is pruned).  The issue direction assumes the
freshly generated random token is not already a key, and the state satisfies
the registry invariant the handlers maintain. -/
theorem token_ops_preserve_dual_index (s : TokenState) (hs : tokenInv s)
    (u : Nat) (bind : Option TokenForm) (gen : Option String)
    (hfresh : ∀ g, gen = some g → s.apiTokenList g = none) (tok : String) :
    dualIndexOk (issueNewToken u bind gen s).1 ∧ dualIndexOk (deleteToken tok s).1 := by
  constructor
  · cases bind with
    | none => exact tokenInv_dualIndexOk s hs
    | some tf =>
      cases gen with
      | none => exact tokenInv_dualIndexOk s hs
      | some g =>
        exact tokenInv_dualIndexOk _ (issueCore_preserves_inv s hs u tf.note g (hfresh g rfl))
  · exact tokenInv_dualIndexOk _ (deleteToken_preserves_inv tok s hs)

/-- Instantiation of the dual-index preservation theorem: issuing a fresh
token to user 2 and deleting the existing token of user 1. -/
theorem token_ops_preserve_dual_index_witness :
    dualIndexOk (issueNewToken 2 (some ⟨"n2"⟩) (some "t2") tokenStateW).1 ∧
    dualIndexOk (deleteToken "t1" tokenStateW).1 :=
  token_ops_preserve_dual_index tokenStateW tokenStateW_inv 2 (some ⟨"n2"⟩) (some "t2")
    (fun g hg => by injection hg with h; subst h; decide) "t1"

end NezhaSpec
